import Mathlib

/-!
Shallow embedding of the silhouette payments engine.

The Rust sources embedded here:
  src/model.rs        identifier newtypes, TxType, CSVRecord, deserialize_decimal
  src/transaction.rs  Transaction, TransactionStatus, TransactionError, TryFrom
  src/ledger.rs       ClientAccount, ClientAccountManager, TxManager, PaymentsEngine
  src/bin/main.rs     the per-row driver loop

Modelling conventions:
  - BigDecimal values flowing through the engine are modelled as rationals:
    the engine only adds, subtracts and compares them, and BigDecimal
    arithmetic on exact decimals is exact, so the rational image is faithful.
  - BigDecimal as a parse result is modelled as a mantissa/scale pair
    (m, s) denoting m / 10 ^ s, which is the representation the crate uses
    and what with_scale_round operates on.
  - The two BTreeMap stores are modelled as functions into Option, with
    pointwise update; entry-or-default insertion is made explicit.
  - u16 and u32 identifiers are modelled as Nat: no claim involves
    overflow or the width of the identifier spaces.
-/

namespace Silhouette

abbrev ClientId := Nat
abbrev TxId := Nat

/-- model.rs TxType. -/
inductive TxType where
  | deposit
  | withdrawal
  | dispute
  | resolve
  | chargeback
deriving DecidableEq

/-- transaction.rs TransactionStatus. -/
inductive TransactionStatus where
  | processed
  | disputed
  | resolved
  | chargedback
deriving DecidableEq

/-- ledger.rs ClientAccountStatus. -/
inductive ClientAccountStatus where
  | active
  | locked
deriving DecidableEq

/-- transaction.rs TransactionError (the InvalidClinetId spelling is the source spelling). -/
inductive TransactionError where
  | invalidClinetId
  | insufficientFunds
  | accountLocked
  | missingAmount
  | invalidAmount
  | notStorable (t : TxType)
  | missingTransaction (tx : TxId)
  | duplicateTransactionId (tx : TxId)
deriving DecidableEq

abbrev TxResult := Except TransactionError Unit

/-- model.rs CSVRecord (amount already parsed; the string-level parse is modelled below). -/
structure CSVRecord where
  type : TxType
  client : ClientId
  tx : TxId
  amount : Option ℚ
deriving DecidableEq

/-- transaction.rs Transaction. -/
structure Transaction where
  tx : TxId
  client : ClientId
  type : TxType
  amount : ℚ
  status : TransactionStatus
deriving DecidableEq

/-- ledger.rs ClientAccount. -/
structure ClientAccount where
  available : ℚ
  held : ℚ
  status : ClientAccountStatus
deriving DecidableEq

/-- ClientAccount::is_locked. -/
def ClientAccount.isLocked (a : ClientAccount) : Bool :=
  match a.status with
  | .locked => true
  | .active => false

/-- ClientAccount::total. -/
def ClientAccount.total (a : ClientAccount) : ℚ :=
  a.available + a.held

/-- Default for ClientAccount: zero balances, Active. -/
def defaultAccount : ClientAccount :=
  { available := 0, held := 0, status := .active }

/-- Transaction::can_be_disputed. -/
def Transaction.canBeDisputed (t : Transaction) (record : CSVRecord) : Bool :=
  if t.client ≠ record.client then
    false
  else
    match t.status with
    | .processed => true
    | .resolved => true
    | _ => false

/-- Transaction::is_disputed. -/
def Transaction.isDisputed (t : Transaction) : Bool :=
  match t.status with
  | .disputed => true
  | _ => false

/-- TryFrom CSVRecord for Transaction. -/
def Transaction.tryFrom (value : CSVRecord) : Except TransactionError Transaction :=
  match value.type with
  | .deposit | .withdrawal =>
    match value.amount with
    | some amount =>
      if amount < 0 then
        .error .invalidAmount
      else
        .ok { tx := value.tx, client := value.client, type := value.type,
              amount := amount, status := .processed }
    | none => .error .missingAmount
  | t => .error (.notStorable t)

/-- The two stores of ledger.rs, as one state record. -/
structure PaymentsEngine where
  accounts : ClientId → Option ClientAccount
  transactions : TxId → Option Transaction

/-- PaymentsEngine::default: both stores empty. -/
def emptyEngine : PaymentsEngine :=
  { accounts := fun _ => none, transactions := fun _ => none }

/-- Pointwise insertion into the account store. -/
def setAccount (m : ClientId → Option ClientAccount) (c : ClientId) (a : ClientAccount) :
    ClientId → Option ClientAccount :=
  fun x => if x = c then some a else m x

/-- ClientAccountManager::get_or_initialise, read side: current or default account. -/
def getOrInitialise (m : ClientId → Option ClientAccount) (c : ClientId) : ClientAccount :=
  (m c).getD defaultAccount

/-- TxManager::insert (entry or_insert: an occupied key keeps its old value). -/
def txInsert (m : TxId → Option Transaction) (t : Transaction) :
    TxId → Option Transaction :=
  fun x => if x = t.tx then some ((m t.tx).getD t) else m x

/-- TxManager::set_status. -/
def setStatus (m : TxId → Option Transaction) (tx : TxId) (s : TransactionStatus) :
    TxResult × (TxId → Option Transaction) :=
  match m tx with
  | some t => (.ok (), fun x => if x = tx then some { t with status := s } else m x)
  | none => (.error (.missingTransaction tx), m)

/-- PaymentsEngine::process_deposit.  get_or_initialise inserts a default
account even on the error paths reached after it, which the model makes
explicit through the intermediate state. -/
def processDeposit (e : PaymentsEngine) (record : CSVRecord) :
    TxResult × PaymentsEngine :=
  if (e.transactions record.tx).isSome then
    (.error (.duplicateTransactionId record.tx), e)
  else
    let account := getOrInitialise e.accounts record.client
    let e1 : PaymentsEngine :=
      { e with accounts := setAccount e.accounts record.client account }
    if account.isLocked then
      (.error .accountLocked, e1)
    else
      match Transaction.tryFrom record with
      | .error err => (.error err, e1)
      | .ok tx =>
        let account2 := { account with available := account.available + tx.amount }
        (.ok (), { accounts := setAccount e.accounts record.client account2,
                   transactions := txInsert e.transactions tx })

/-- PaymentsEngine::process_withdrawal. -/
def processWithdrawal (e : PaymentsEngine) (record : CSVRecord) :
    TxResult × PaymentsEngine :=
  if (e.transactions record.tx).isSome then
    (.error (.duplicateTransactionId record.tx), e)
  else
    let account := getOrInitialise e.accounts record.client
    let e1 : PaymentsEngine :=
      { e with accounts := setAccount e.accounts record.client account }
    if account.isLocked then
      (.error .accountLocked, e1)
    else if account.available < (record.amount.getD 0) then
      (.error .insufficientFunds, e1)
    else
      match Transaction.tryFrom record with
      | .error err => (.error err, e1)
      | .ok tx =>
        let account2 := { account with available := account.available - tx.amount }
        (.ok (), { accounts := setAccount e.accounts record.client account2,
                   transactions := txInsert e.transactions tx })

/-- PaymentsEngine::process_dispute. -/
def processDispute (e : PaymentsEngine) (record : CSVRecord) :
    TxResult × PaymentsEngine :=
  match e.transactions record.tx with
  | none => (.error (.missingTransaction record.tx), e)
  | some t =>
    if t.client ≠ record.client then
      (.error .invalidClinetId, e)
    else if t.type ≠ .deposit ∨ t.canBeDisputed record = false then
      (.ok (), e)
    else
      let account := getOrInitialise e.accounts record.client
      let account2 := { account with
        available := account.available - t.amount,
        held := account.held + t.amount }
      let e1 : PaymentsEngine :=
        { e with accounts := setAccount e.accounts record.client account2 }
      let res := setStatus e1.transactions t.tx .disputed
      (res.1, { e1 with transactions := res.2 })

/-- PaymentsEngine::process_resolve.  The source checks only the disputed
status: there is no client comparison, and the account mutated is the one
of record.client. -/
def processResolve (e : PaymentsEngine) (record : CSVRecord) :
    TxResult × PaymentsEngine :=
  match e.transactions record.tx with
  | none => (.error (.missingTransaction record.tx), e)
  | some t =>
    if t.isDisputed = false then
      (.ok (), e)
    else
      let account := getOrInitialise e.accounts record.client
      let account2 := { account with
        available := account.available + t.amount,
        held := account.held - t.amount }
      let e1 : PaymentsEngine :=
        { e with accounts := setAccount e.accounts record.client account2 }
      let res := setStatus e1.transactions t.tx .resolved
      (res.1, { e1 with transactions := res.2 })

/-- PaymentsEngine::process_chargeback. -/
def processChargeback (e : PaymentsEngine) (record : CSVRecord) :
    TxResult × PaymentsEngine :=
  match e.transactions record.tx with
  | none => (.error (.missingTransaction record.tx), e)
  | some t =>
    if t.client ≠ record.client then
      (.error .invalidClinetId, e)
    else if t.isDisputed = false ∨ t.type ≠ .deposit then
      (.ok (), e)
    else
      let account := getOrInitialise e.accounts record.client
      let account2 := { account with
        status := ClientAccountStatus.locked,
        held := account.held - t.amount }
      let e1 : PaymentsEngine :=
        { e with accounts := setAccount e.accounts record.client account2 }
      let res := setStatus e1.transactions t.tx .chargedback
      (res.1, { e1 with transactions := res.2 })

/-- PaymentsEngine::process_csv_record. -/
def processCsvRecord (e : PaymentsEngine) (record : CSVRecord) :
    TxResult × PaymentsEngine :=
  match record.type with
  | .deposit => processDeposit e record
  | .withdrawal => processWithdrawal e record
  | .dispute => processDispute e record
  | .resolve => processResolve e record
  | .chargeback => processChargeback e record

/-- Feeding a whole record sequence through the engine, in input order. -/
def processAll (e : PaymentsEngine) (records : List CSVRecord) : PaymentsEngine :=
  records.foldl (fun acc r => (processCsvRecord acc r).2) e

/-- Observables of the final state: available balance of a client (zero for
an absent account, matching the lazily defaulted view). -/
def availOf (e : PaymentsEngine) (c : ClientId) : ℚ :=
  ((e.accounts c).getD defaultAccount).available

/-- Held balance of a client. -/
def heldOf (e : PaymentsEngine) (c : ClientId) : ℚ :=
  ((e.accounts c).getD defaultAccount).held

/-- Lock flag of a client. -/
def lockedOf (e : PaymentsEngine) (c : ClientId) : Bool :=
  ((e.accounts c).getD defaultAccount).isLocked

/-- Lifecycle status of a stored transaction. -/
def txStatusOf (e : PaymentsEngine) (k : TxId) : Option TransactionStatus :=
  (e.transactions k).map Transaction.status

/-! ### Store-level helper lemmas -/

lemma getD_setAccount (m : ClientId → Option ClientAccount) (c : ClientId)
    (a : ClientAccount) (x : ClientId) :
    (setAccount m c a x).getD defaultAccount =
      if x = c then a else (m x).getD defaultAccount := by
  unfold setAccount
  split <;> rfl

lemma getOrInitialise_held (m : ClientId → Option ClientAccount) (c : ClientId) :
    (getOrInitialise m c).held = ((m c).getD defaultAccount).held := rfl

lemma heldOf_setAccount (m : ClientId → Option ClientAccount)
    (tr : TxId → Option Transaction) (rc : ClientId) (a : ClientAccount) (c : ClientId) :
    heldOf ⟨setAccount m rc a, tr⟩ c =
      if c = rc then a.held else ((m c).getD defaultAccount).held := by
  simp only [heldOf, getD_setAccount]
  split <;> rfl

lemma availOf_setAccount (m : ClientId → Option ClientAccount)
    (tr : TxId → Option Transaction) (rc : ClientId) (a : ClientAccount) (c : ClientId) :
    availOf ⟨setAccount m rc a, tr⟩ c =
      if c = rc then a.available else ((m c).getD defaultAccount).available := by
  simp only [availOf, getD_setAccount]
  split <;> rfl

lemma lockedOf_setAccount (m : ClientId → Option ClientAccount)
    (tr : TxId → Option Transaction) (rc : ClientId) (a : ClientAccount) (c : ClientId) :
    lockedOf ⟨setAccount m rc a, tr⟩ c =
      if c = rc then a.isLocked else ((m c).getD defaultAccount).isLocked := by
  simp only [lockedOf, getD_setAccount]
  split <;> rfl

lemma setStatus_fst (m : TxId → Option Transaction) (tx : TxId) (s : TransactionStatus) :
    (setStatus m tx s).1 = .ok () ∨
      (setStatus m tx s).1 = .error (.missingTransaction tx) := by
  unfold setStatus
  split <;> simp

lemma setStatus_of_some (m : TxId → Option Transaction) (tx : TxId)
    (s : TransactionStatus) (t : Transaction) (h : m tx = some t) :
    (setStatus m tx s).1 = .ok () ∧
      (setStatus m tx s).2 tx = some { t with status := s } := by
  unfold setStatus
  rw [h]
  simp

lemma tryFrom_ok_fields (r : CSVRecord) (t : Transaction)
    (h : Transaction.tryFrom r = .ok t) :
    0 ≤ t.amount ∧ t.tx = r.tx ∧ t.client = r.client ∧ t.type = r.type ∧
      t.status = .processed ∧ r.amount = some t.amount := by
  rcases r with ⟨ty, cl, tx, am⟩
  cases ty <;> unfold Transaction.tryFrom at h <;> simp at h
  case deposit =>
    cases am with
    | none => simp at h
    | some a =>
      simp at h
      split at h
      · simp at h
      · rename_i hneg
        obtain rfl : t = ⟨tx, cl, .deposit, a, .processed⟩ := by
          cases h
          rfl
        push_neg at hneg
        simp [hneg]
  case withdrawal =>
    cases am with
    | none => simp at h
    | some a =>
      simp at h
      split at h
      · simp at h
      · rename_i hneg
        obtain rfl : t = ⟨tx, cl, .withdrawal, a, .processed⟩ := by
          cases h
          rfl
        push_neg at hneg
        simp [hneg]

/-! ### Per-operation effect lemmas -/

lemma heldOf_processDeposit (e : PaymentsEngine) (r : CSVRecord) (c : ClientId) :
    heldOf (processDeposit e r).2 c = heldOf e c := by
  dsimp only [processDeposit]
  repeat' split
  all_goals
    first
      | rfl
      | (simp only [heldOf_setAccount, getOrInitialise]
         split
         · simp_all only [heldOf]
         · rfl)

lemma heldOf_processWithdrawal (e : PaymentsEngine) (r : CSVRecord) (c : ClientId) :
    heldOf (processWithdrawal e r).2 c = heldOf e c := by
  dsimp only [processWithdrawal]
  repeat' split
  all_goals
    first
      | rfl
      | (simp only [heldOf_setAccount, getOrInitialise]
         split
         · simp_all only [heldOf]
         · rfl)

lemma heldOf_processDispute_ge (e : PaymentsEngine) (r : CSVRecord) (c : ClientId)
    (hnn : ∀ k u, e.transactions k = some u → 0 ≤ u.amount) :
    heldOf e c ≤ heldOf (processDispute e r).2 c := by
  dsimp only [processDispute]
  split
  · exact le_refl _
  · rename_i t ht
    split
    · exact le_refl _
    · split
      · exact le_refl _
      · simp only [heldOf_setAccount, getOrInitialise]
        split
        · rename_i hc
          subst hc
          have := hnn r.tx t ht
          simp only [heldOf]
          linarith
        · exact le_refl _

lemma heldOf_processResolve_other (e : PaymentsEngine) (r : CSVRecord) (c : ClientId)
    (h : c ≠ r.client) :
    heldOf (processResolve e r).2 c = heldOf e c := by
  dsimp only [processResolve]
  repeat' split
  all_goals
    first
      | rfl
      | (simp only [heldOf_setAccount, getOrInitialise, if_neg h]
         rfl)

lemma heldOf_processChargeback_other (e : PaymentsEngine) (r : CSVRecord) (c : ClientId)
    (h : c ≠ r.client) :
    heldOf (processChargeback e r).2 c = heldOf e c := by
  dsimp only [processChargeback]
  repeat' split
  all_goals
    first
      | rfl
      | (simp only [heldOf_setAccount, getOrInitialise, if_neg h]
         rfl)

lemma availOf_processDeposit_nonneg (e : PaymentsEngine) (r : CSVRecord) (c : ClientId)
    (h : 0 ≤ availOf e c) :
    0 ≤ availOf (processDeposit e r).2 c := by
  dsimp only [processDeposit]
  split
  · exact h
  split
  · simp only [availOf_setAccount, getOrInitialise]
    split
    · rename_i hc
      subst hc
      exact h
    · exact h
  · split
    · simp only [availOf_setAccount, getOrInitialise]
      split
      · rename_i hc
        subst hc
        exact h
      · exact h
    · rename_i t ht
      simp only [availOf_setAccount, getOrInitialise]
      split
      · rename_i hc
        subst hc
        obtain ⟨hnn, -, -, -, -, -⟩ := tryFrom_ok_fields r t ht
        simp only [availOf] at h ⊢
        linarith
      · exact h

lemma availOf_processWithdrawal_nonneg (e : PaymentsEngine) (r : CSVRecord) (c : ClientId)
    (h : 0 ≤ availOf e c) :
    0 ≤ availOf (processWithdrawal e r).2 c := by
  dsimp only [processWithdrawal]
  split
  · exact h
  split
  · simp only [availOf_setAccount, getOrInitialise]
    split
    · rename_i hc
      subst hc
      exact h
    · exact h
  split
  · simp only [availOf_setAccount, getOrInitialise]
    split
    · rename_i hc
      subst hc
      exact h
    · exact h
  · split
    · simp only [availOf_setAccount, getOrInitialise]
      split
      · rename_i hc
        subst hc
        exact h
      · exact h
    · rename_i hnotlt hmot t ht
      simp only [availOf_setAccount, getOrInitialise]
      split
      · rename_i hc
        subst hc
        obtain ⟨-, -, -, -, -, hsome⟩ := tryFrom_ok_fields r t ht
        simp only [getOrInitialise, hsome, Option.getD_some] at hnotlt
        push_neg at hnotlt
        linarith
      · exact h

lemma availOf_processResolve_nonneg (e : PaymentsEngine) (r : CSVRecord) (c : ClientId)
    (hnn : ∀ k u, e.transactions k = some u → 0 ≤ u.amount)
    (h : 0 ≤ availOf e c) :
    0 ≤ availOf (processResolve e r).2 c := by
  dsimp only [processResolve]
  split
  · exact h
  rename_i t ht
  split
  · exact h
  simp only [availOf_setAccount, getOrInitialise]
  split
  · rename_i hc
    subst hc
    have := hnn r.tx t ht
    simp only [availOf] at h ⊢
    linarith
  · exact h

lemma availOf_processChargeback (e : PaymentsEngine) (r : CSVRecord) (c : ClientId) :
    availOf (processChargeback e r).2 c = availOf e c := by
  dsimp only [processChargeback]
  repeat' split
  all_goals
    first
      | rfl
      | (simp only [availOf_setAccount, getOrInitialise]
         split
         · simp_all only [availOf]
         · rfl)

lemma lockedOf_processDeposit (e : PaymentsEngine) (r : CSVRecord) (c : ClientId)
    (h : lockedOf e c = true) :
    lockedOf (processDeposit e r).2 c = true := by
  dsimp only [processDeposit]
  repeat' split
  all_goals
    first
      | exact h
      | (simp only [lockedOf_setAccount, getOrInitialise]
         split
         · rename_i hc
           subst hc
           exact h
         · exact h)

lemma lockedOf_processWithdrawal (e : PaymentsEngine) (r : CSVRecord) (c : ClientId)
    (h : lockedOf e c = true) :
    lockedOf (processWithdrawal e r).2 c = true := by
  dsimp only [processWithdrawal]
  repeat' split
  all_goals
    first
      | exact h
      | (simp only [lockedOf_setAccount, getOrInitialise]
         split
         · rename_i hc
           subst hc
           exact h
         · exact h)

lemma lockedOf_processDispute (e : PaymentsEngine) (r : CSVRecord) (c : ClientId)
    (h : lockedOf e c = true) :
    lockedOf (processDispute e r).2 c = true := by
  dsimp only [processDispute]
  repeat' split
  all_goals
    first
      | exact h
      | (simp only [lockedOf_setAccount, getOrInitialise]
         split
         · rename_i hc
           subst hc
           exact h
         · exact h)

lemma lockedOf_processResolve (e : PaymentsEngine) (r : CSVRecord) (c : ClientId)
    (h : lockedOf e c = true) :
    lockedOf (processResolve e r).2 c = true := by
  dsimp only [processResolve]
  repeat' split
  all_goals
    first
      | exact h
      | (simp only [lockedOf_setAccount, getOrInitialise]
         split
         · rename_i hc
           subst hc
           exact h
         · exact h)

lemma lockedOf_processChargeback (e : PaymentsEngine) (r : CSVRecord) (c : ClientId)
    (h : lockedOf e c = true) :
    lockedOf (processChargeback e r).2 c = true := by
  dsimp only [processChargeback]
  repeat' split
  all_goals
    first
      | exact h
      | (simp only [lockedOf_setAccount, getOrInitialise]
         split
         · rfl
         · exact h)

lemma lockedOf_step (e : PaymentsEngine) (r : CSVRecord) (c : ClientId)
    (h : lockedOf e c = true) :
    lockedOf (processCsvRecord e r).2 c = true := by
  dsimp only [processCsvRecord]
  split
  · exact lockedOf_processDeposit e r c h
  · exact lockedOf_processWithdrawal e r c h
  · exact lockedOf_processDispute e r c h
  · exact lockedOf_processResolve e r c h
  · exact lockedOf_processChargeback e r c h

lemma lockedOf_processAll (e : PaymentsEngine) (rs : List CSVRecord) (c : ClientId)
    (h : lockedOf e c = true) :
    lockedOf (processAll e rs) c = true := by
  induction rs generalizing e with
  | nil => exact h
  | cons r rest ih =>
    exact ih _ (lockedOf_step e r c h)

lemma setStatus_ne_accountLocked (m : TxId → Option Transaction) (tx : TxId)
    (s : TransactionStatus) :
    (setStatus m tx s).1 ≠ .error .accountLocked := by
  unfold setStatus
  split <;> simp

lemma processDispute_ne_accountLocked (e : PaymentsEngine) (r : CSVRecord) :
    (processDispute e r).1 ≠ .error .accountLocked := by
  dsimp only [processDispute]
  repeat' split
  all_goals
    first
      | exact setStatus_ne_accountLocked _ _ _
      | simp

lemma processResolve_ne_accountLocked (e : PaymentsEngine) (r : CSVRecord) :
    (processResolve e r).1 ≠ .error .accountLocked := by
  dsimp only [processResolve]
  repeat' split
  all_goals
    first
      | exact setStatus_ne_accountLocked _ _ _
      | simp

lemma processChargeback_ne_accountLocked (e : PaymentsEngine) (r : CSVRecord) :
    (processChargeback e r).1 ≠ .error .accountLocked := by
  dsimp only [processChargeback]
  repeat' split
  all_goals
    first
      | exact setStatus_ne_accountLocked _ _ _
      | simp

lemma processDeposit_locked_rejects (e : PaymentsEngine) (r : CSVRecord)
    (hfresh : e.transactions r.tx = none)
    (h : lockedOf e r.client = true) :
    (processDeposit e r).1 = .error .accountLocked := by
  dsimp only [processDeposit]
  rw [hfresh]
  simp only [Option.isSome_none, Bool.false_eq_true, if_false]
  rw [if_pos]
  exact h

lemma processWithdrawal_locked_rejects (e : PaymentsEngine) (r : CSVRecord)
    (hfresh : e.transactions r.tx = none)
    (h : lockedOf e r.client = true) :
    (processWithdrawal e r).1 = .error .accountLocked := by
  dsimp only [processWithdrawal]
  rw [hfresh]
  simp only [Option.isSome_none, Bool.false_eq_true, if_false]
  rw [if_pos]
  exact h

lemma canBeDisputed_true (t : Transaction) (r : CSVRecord)
    (hcl : t.client = r.client)
    (hst : t.status = .processed ∨ t.status = .resolved) :
    t.canBeDisputed r = true := by
  unfold Transaction.canBeDisputed
  rw [if_neg (by simp [hcl])]
  rcases hst with h | h <;> rw [h]

lemma isDisputed_true (t : Transaction) (hst : t.status = .disputed) :
    t.isDisputed = true := by
  unfold Transaction.isDisputed
  rw [hst]

lemma processDispute_mutates (e : PaymentsEngine) (r : CSVRecord) (t : Transaction)
    (ht : e.transactions r.tx = some t)
    (hcl : t.client = r.client)
    (hty : t.type = .deposit)
    (hst : t.status = .processed ∨ t.status = .resolved) :
    availOf (processDispute e r).2 r.client = availOf e r.client - t.amount ∧
    heldOf (processDispute e r).2 r.client = heldOf e r.client + t.amount ∧
    (∀ c, c ≠ r.client → availOf (processDispute e r).2 c = availOf e c ∧
      heldOf (processDispute e r).2 c = heldOf e c) ∧
    (t.tx = r.tx → (processDispute e r).1 = .ok () ∧
      txStatusOf (processDispute e r).2 r.tx = some .disputed) := by
  have hcbd := canBeDisputed_true t r hcl hst
  dsimp only [processDispute]
  rw [ht]
  dsimp only
  rw [if_neg (by simp [hcl])]
  rw [if_neg (by simp [hty, hcbd])]
  refine ⟨?_, ?_, ?_, ?_⟩
  · simp only [availOf_setAccount, if_pos rfl]
    rfl
  · simp only [heldOf_setAccount, if_pos rfl]
    rfl
  · intro c hc
    constructor
    · simp only [availOf_setAccount, if_neg hc]
      rfl
    · simp only [heldOf_setAccount, if_neg hc]
      rfl
  · intro hkey
    rw [hkey]
    have hsome : e.transactions r.tx = some t := ht
    obtain ⟨h1, h2⟩ := setStatus_of_some e.transactions r.tx .disputed t hsome
    refine ⟨h1, ?_⟩
    simp only [txStatusOf, h2]
    rfl

lemma processResolve_disputed (e : PaymentsEngine) (r : CSVRecord) (t : Transaction)
    (ht : e.transactions r.tx = some t)
    (hst : t.status = .disputed) :
    availOf (processResolve e r).2 r.client = availOf e r.client + t.amount ∧
    heldOf (processResolve e r).2 r.client = heldOf e r.client - t.amount ∧
    (∀ c, c ≠ r.client → availOf (processResolve e r).2 c = availOf e c ∧
      heldOf (processResolve e r).2 c = heldOf e c) ∧
    (t.tx = r.tx → (processResolve e r).1 = .ok () ∧
      txStatusOf (processResolve e r).2 r.tx = some .resolved) := by
  have hd := isDisputed_true t hst
  dsimp only [processResolve]
  rw [ht]
  dsimp only
  rw [if_neg (by simp [hd])]
  refine ⟨?_, ?_, ?_, ?_⟩
  · simp only [availOf_setAccount, if_pos rfl]
    rfl
  · simp only [heldOf_setAccount, if_pos rfl]
    rfl
  · intro c hc
    constructor
    · simp only [availOf_setAccount, if_neg hc]
      rfl
    · simp only [heldOf_setAccount, if_neg hc]
      rfl
  · intro hkey
    rw [hkey]
    obtain ⟨h1, h2⟩ := setStatus_of_some e.transactions r.tx .resolved t ht
    refine ⟨h1, ?_⟩
    simp only [txStatusOf, h2]
    rfl

lemma processChargeback_disputed (e : PaymentsEngine) (r : CSVRecord) (t : Transaction)
    (ht : e.transactions r.tx = some t)
    (hcl : t.client = r.client)
    (hty : t.type = .deposit)
    (hst : t.status = .disputed) :
    heldOf (processChargeback e r).2 r.client = heldOf e r.client - t.amount ∧
    availOf (processChargeback e r).2 r.client = availOf e r.client ∧
    lockedOf (processChargeback e r).2 r.client = true ∧
    (∀ c, c ≠ r.client → availOf (processChargeback e r).2 c = availOf e c ∧
      heldOf (processChargeback e r).2 c = heldOf e c) ∧
    (t.tx = r.tx → (processChargeback e r).1 = .ok () ∧
      txStatusOf (processChargeback e r).2 r.tx = some .chargedback) := by
  have hd := isDisputed_true t hst
  dsimp only [processChargeback]
  rw [ht]
  dsimp only
  rw [if_neg (by simp [hcl])]
  rw [if_neg (by simp [hd, hty])]
  refine ⟨?_, ?_, ?_, ?_, ?_⟩
  · simp only [heldOf_setAccount, if_pos rfl]
    rfl
  · simp only [availOf_setAccount, if_pos rfl]
    rfl
  · simp only [lockedOf_setAccount, if_pos rfl]
    rfl
  · intro c hc
    constructor
    · simp only [availOf_setAccount, if_neg hc]
      rfl
    · simp only [heldOf_setAccount, if_neg hc]
      rfl
  · intro hkey
    rw [hkey]
    obtain ⟨h1, h2⟩ := setStatus_of_some e.transactions r.tx .chargedback t ht
    refine ⟨h1, ?_⟩
    simp only [txStatusOf, h2]
    rfl

lemma processWithdrawal_insufficient (e : PaymentsEngine) (r : CSVRecord)
    (hfresh : e.transactions r.tx = none)
    (hlock : lockedOf e r.client = false)
    (hav : availOf e r.client < r.amount.getD 0) :
    (processWithdrawal e r).1 = .error .insufficientFunds ∧
    (∀ c, availOf (processWithdrawal e r).2 c = availOf e c ∧
          heldOf (processWithdrawal e r).2 c = heldOf e c) ∧
    (processWithdrawal e r).2.transactions = e.transactions := by
  dsimp only [processWithdrawal]
  rw [hfresh]
  simp only [Option.isSome_none, Bool.false_eq_true, if_false]
  have hl2 : (getOrInitialise e.accounts r.client).isLocked = false := hlock
  rw [hl2]
  simp only [Bool.false_eq_true, if_false]
  rw [if_pos (show (getOrInitialise e.accounts r.client).available < r.amount.getD 0 from hav)]
  refine ⟨rfl, ?_, rfl⟩
  intro c
  constructor
  · simp only [availOf_setAccount, getOrInitialise]
    split
    · rename_i hc
      subst hc
      rfl
    · rfl
  · simp only [heldOf_setAccount, getOrInitialise]
    split
    · rename_i hc
      subst hc
      rfl
    · rfl

/-! ### Reachability invariants: stored amounts are non-negative and each
stored transaction sits at its own TxId key.  These justify using the
corresponding hypotheses in the claim theorems. -/

def AmountsNonneg (e : PaymentsEngine) : Prop :=
  ∀ k u, e.transactions k = some u → 0 ≤ u.amount

def KeysConsistent (e : PaymentsEngine) : Prop :=
  ∀ k u, e.transactions k = some u → u.tx = k

lemma amountsNonneg_empty : AmountsNonneg emptyEngine := by
  intro k u hk
  simp [emptyEngine] at hk

lemma keysConsistent_empty : KeysConsistent emptyEngine := by
  intro k u hk
  simp [emptyEngine] at hk

lemma txInsert_cases (m : TxId → Option Transaction) (t : Transaction) (k : TxId)
    (u : Transaction) (hk : txInsert m t k = some u) :
    m k = some u ∨ (k = t.tx ∧ u = t ∧ m t.tx = none) := by
  unfold txInsert at hk
  split at hk
  · rename_i hke
    subst hke
    cases hm : m t.tx with
    | none =>
      rw [hm] at hk
      simp at hk
      exact Or.inr ⟨rfl, hk.symm, rfl⟩
    | some w =>
      rw [hm] at hk
      simp at hk
      subst hk
      exact Or.inl rfl
  · exact Or.inl hk

lemma setStatus_snd_cases (m : TxId → Option Transaction) (tx : TxId)
    (s : TransactionStatus) (k : TxId) (u : Transaction)
    (hk : (setStatus m tx s).2 k = some u) :
    m k = some u ∨ (k = tx ∧ ∃ t, m tx = some t ∧ u = { t with status := s }) := by
  unfold setStatus at hk
  split at hk
  · rename_i t hmt
    dsimp only at hk
    split at hk
    · rename_i hke
      subst hke
      simp at hk
      exact Or.inr ⟨rfl, t, hmt, hk.symm⟩
    · exact Or.inl hk
  · exact Or.inl hk

lemma amountsNonneg_processDeposit (e : PaymentsEngine) (r : CSVRecord)
    (h : AmountsNonneg e) : AmountsNonneg (processDeposit e r).2 := by
  intro k u hk
  dsimp only [processDeposit] at hk
  split at hk
  · exact h k u hk
  split at hk
  · exact h k u hk
  split at hk
  · exact h k u hk
  · rename_i t ht
    rcases txInsert_cases _ _ _ _ hk with hm | ⟨-, rfl, -⟩
    · exact h k u hm
    · exact (tryFrom_ok_fields r u ht).1

lemma amountsNonneg_processWithdrawal (e : PaymentsEngine) (r : CSVRecord)
    (h : AmountsNonneg e) : AmountsNonneg (processWithdrawal e r).2 := by
  intro k u hk
  dsimp only [processWithdrawal] at hk
  split at hk
  · exact h k u hk
  split at hk
  · exact h k u hk
  split at hk
  · exact h k u hk
  split at hk
  · exact h k u hk
  · rename_i t ht
    rcases txInsert_cases _ _ _ _ hk with hm | ⟨-, rfl, -⟩
    · exact h k u hm
    · exact (tryFrom_ok_fields r u ht).1

lemma amountsNonneg_setStatus_engine (e : PaymentsEngine) (tx : TxId)
    (s : TransactionStatus) (h : AmountsNonneg e) (k : TxId) (u : Transaction)
    (hk : (setStatus e.transactions tx s).2 k = some u) : 0 ≤ u.amount := by
  rcases setStatus_snd_cases _ _ _ _ _ hk with hm | ⟨-, t, hmt, rfl⟩
  · exact h k u hm
  · exact h tx t hmt

lemma amountsNonneg_processDispute (e : PaymentsEngine) (r : CSVRecord)
    (h : AmountsNonneg e) : AmountsNonneg (processDispute e r).2 := by
  intro k u hk
  dsimp only [processDispute] at hk
  split at hk
  · exact h k u hk
  split at hk
  · exact h k u hk
  split at hk
  · exact h k u hk
  · exact amountsNonneg_setStatus_engine e _ _ h k u hk

lemma amountsNonneg_processResolve (e : PaymentsEngine) (r : CSVRecord)
    (h : AmountsNonneg e) : AmountsNonneg (processResolve e r).2 := by
  intro k u hk
  dsimp only [processResolve] at hk
  split at hk
  · exact h k u hk
  split at hk
  · exact h k u hk
  · exact amountsNonneg_setStatus_engine e _ _ h k u hk

lemma amountsNonneg_processChargeback (e : PaymentsEngine) (r : CSVRecord)
    (h : AmountsNonneg e) : AmountsNonneg (processChargeback e r).2 := by
  intro k u hk
  dsimp only [processChargeback] at hk
  split at hk
  · exact h k u hk
  split at hk
  · exact h k u hk
  split at hk
  · exact h k u hk
  · exact amountsNonneg_setStatus_engine e _ _ h k u hk

lemma amountsNonneg_step (e : PaymentsEngine) (r : CSVRecord)
    (h : AmountsNonneg e) : AmountsNonneg (processCsvRecord e r).2 := by
  dsimp only [processCsvRecord]
  split
  · exact amountsNonneg_processDeposit e r h
  · exact amountsNonneg_processWithdrawal e r h
  · exact amountsNonneg_processDispute e r h
  · exact amountsNonneg_processResolve e r h
  · exact amountsNonneg_processChargeback e r h

lemma amountsNonneg_processAll (e : PaymentsEngine) (rs : List CSVRecord)
    (h : AmountsNonneg e) : AmountsNonneg (processAll e rs) := by
  induction rs generalizing e with
  | nil => exact h
  | cons r rest ih => exact ih _ (amountsNonneg_step e r h)

lemma keysConsistent_processDeposit (e : PaymentsEngine) (r : CSVRecord)
    (h : KeysConsistent e) : KeysConsistent (processDeposit e r).2 := by
  intro k u hk
  dsimp only [processDeposit] at hk
  split at hk
  · exact h k u hk
  split at hk
  · exact h k u hk
  split at hk
  · exact h k u hk
  · rcases txInsert_cases _ _ _ _ hk with hm | ⟨hke, rfl, -⟩
    · exact h k u hm
    · exact hke.symm

lemma keysConsistent_processWithdrawal (e : PaymentsEngine) (r : CSVRecord)
    (h : KeysConsistent e) : KeysConsistent (processWithdrawal e r).2 := by
  intro k u hk
  dsimp only [processWithdrawal] at hk
  split at hk
  · exact h k u hk
  split at hk
  · exact h k u hk
  split at hk
  · exact h k u hk
  split at hk
  · exact h k u hk
  · rcases txInsert_cases _ _ _ _ hk with hm | ⟨hke, rfl, -⟩
    · exact h k u hm
    · exact hke.symm

lemma keysConsistent_setStatus_engine (e : PaymentsEngine) (tx : TxId)
    (s : TransactionStatus) (h : KeysConsistent e) (k : TxId) (u : Transaction)
    (hk : (setStatus e.transactions tx s).2 k = some u) : u.tx = k := by
  rcases setStatus_snd_cases _ _ _ _ _ hk with hm | ⟨hke, t, hmt, rfl⟩
  · exact h k u hm
  · subst hke
    exact h k t hmt

lemma keysConsistent_processDispute (e : PaymentsEngine) (r : CSVRecord)
    (h : KeysConsistent e) : KeysConsistent (processDispute e r).2 := by
  intro k u hk
  dsimp only [processDispute] at hk
  split at hk
  · exact h k u hk
  split at hk
  · exact h k u hk
  split at hk
  · exact h k u hk
  · exact keysConsistent_setStatus_engine e _ _ h k u hk

lemma keysConsistent_processResolve (e : PaymentsEngine) (r : CSVRecord)
    (h : KeysConsistent e) : KeysConsistent (processResolve e r).2 := by
  intro k u hk
  dsimp only [processResolve] at hk
  split at hk
  · exact h k u hk
  split at hk
  · exact h k u hk
  · exact keysConsistent_setStatus_engine e _ _ h k u hk

lemma keysConsistent_processChargeback (e : PaymentsEngine) (r : CSVRecord)
    (h : KeysConsistent e) : KeysConsistent (processChargeback e r).2 := by
  intro k u hk
  dsimp only [processChargeback] at hk
  split at hk
  · exact h k u hk
  split at hk
  · exact h k u hk
  split at hk
  · exact h k u hk
  · exact keysConsistent_setStatus_engine e _ _ h k u hk

lemma keysConsistent_step (e : PaymentsEngine) (r : CSVRecord)
    (h : KeysConsistent e) : KeysConsistent (processCsvRecord e r).2 := by
  dsimp only [processCsvRecord]
  split
  · exact keysConsistent_processDeposit e r h
  · exact keysConsistent_processWithdrawal e r h
  · exact keysConsistent_processDispute e r h
  · exact keysConsistent_processResolve e r h
  · exact keysConsistent_processChargeback e r h

lemma keysConsistent_processAll (e : PaymentsEngine) (rs : List CSVRecord)
    (h : KeysConsistent e) : KeysConsistent (processAll e rs) := by
  induction rs generalizing e with
  | nil => exact h
  | cons r rest ih => exact ih _ (keysConsistent_step e r h)

lemma heldOf_decrease_step (e : PaymentsEngine) (r : CSVRecord) (c : ClientId)
    (hnn : AmountsNonneg e)
    (hlt : heldOf (processCsvRecord e r).2 c < heldOf e c) :
    (r.type = .resolve ∨ r.type = .chargeback) ∧ r.client = c := by
  dsimp only [processCsvRecord] at hlt
  split at hlt
  · rw [heldOf_processDeposit] at hlt
    exact absurd hlt (lt_irrefl _)
  · rw [heldOf_processWithdrawal] at hlt
    exact absurd hlt (lt_irrefl _)
  · exact absurd hlt (not_lt.mpr (heldOf_processDispute_ge e r c hnn))
  · rename_i hty
    refine ⟨Or.inl hty, ?_⟩
    by_cases hc : c = r.client
    · exact hc.symm
    · rw [heldOf_processResolve_other e r c hc] at hlt
      exact absurd hlt (lt_irrefl _)
  · rename_i hty
    refine ⟨Or.inr hty, ?_⟩
    by_cases hc : c = r.client
    · exact hc.symm
    · rw [heldOf_processChargeback_other e r c hc] at hlt
      exact absurd hlt (lt_irrefl _)

lemma availOf_nonneg_step (e : PaymentsEngine) (r : CSVRecord) (c : ClientId)
    (hnn : AmountsNonneg e) (h : 0 ≤ availOf e c) (hnd : r.type ≠ .dispute) :
    0 ≤ availOf (processCsvRecord e r).2 c := by
  dsimp only [processCsvRecord]
  split
  · exact availOf_processDeposit_nonneg e r c h
  · exact availOf_processWithdrawal_nonneg e r c h
  · rename_i hty
    exact absurd hty hnd
  · exact availOf_processResolve_nonneg e r c hnn h
  · rw [availOf_processChargeback]
    exact h

/-! ### The driver loop of src/bin/main.rs

The csv reader error type is opaque to the repository; it is modelled by a
simple code-carrying structure.  The driver prints processing failures to
stderr and continues, but returns the row error of an unparseable row,
ending the run. -/

structure ParseError where
  code : Nat
deriving DecidableEq

abbrev Row := Except ParseError CSVRecord

/-- The mutable state of main: the engine plus the diagnostics printed to
stderr (modelled as the list of processing errors reported there). -/
structure RunState where
  engine : PaymentsEngine
  stderrLog : List TransactionError

/-- The for-loop of main.rs over the row stream: an Ok row is processed
(the error, if any, only logged), an Err row makes main return that error. -/
def runMain (st : RunState) : List Row → Except ParseError RunState
  | [] => .ok st
  | .ok r :: rest =>
    match processCsvRecord st.engine r with
    | (.ok _, e2) => runMain ⟨e2, st.stderrLog⟩ rest
    | (.error err, e2) => runMain ⟨e2, st.stderrLog ++ [err]⟩ rest
  | .error pe :: _ => .error pe

/-! ### The amount parser of src/model.rs

deserialize_decimal trims the field, maps an empty field to None, parses
the text as a decimal (BigDecimal::parse_bytes, radix 10) and renormalizes
with with_scale_round(4, RoundingMode::HalfEven).  A decimal is a
mantissa/scale pair (m, s) denoting m / 10 ^ s.  Scientific-notation
inputs are not modelled; no claim mentions them. -/

def isWhitespaceChar (c : Char) : Bool :=
  c = ' ' ∨ c = '\t' ∨ c = '\n' ∨ c = '\r'

/-- str::trim, restricted to ASCII whitespace. -/
def trimChars (l : List Char) : List Char :=
  ((l.dropWhile isWhitespaceChar).reverse.dropWhile isWhitespaceChar).reverse

def digitVal (c : Char) : Option Nat :=
  if 48 ≤ c.toNat ∧ c.toNat ≤ 57 then some (c.toNat - 48) else none

/-- Digit scanner: accumulates the unsigned mantissa and the count of
digits after the (at most one) decimal point; fails on any other char. -/
def scanDec : List Char → Bool → Nat → Nat → Bool → Option (Nat × Nat)
  | [], _, acc, sc, seenDigit => if seenDigit then some (acc, sc) else none
  | c :: rest, seenDot, acc, sc, seenDigit =>
    if c = '.' then
      if seenDot then none else scanDec rest true acc sc seenDigit
    else
      match digitVal c with
      | some d => scanDec rest seenDot (acc * 10 + d) (if seenDot then sc + 1 else sc) true
      | none => none

/-- BigDecimal::parse_bytes for plain signed decimal text. -/
def parseBigDecimalChars (l : List Char) : Option (Int × Int) :=
  match l with
  | '-' :: rest => (scanDec rest false 0 0 false).map (fun p => (-(p.1 : Int), (p.2 : Int)))
  | '+' :: rest => (scanDec rest false 0 0 false).map (fun p => ((p.1 : Int), (p.2 : Int)))
  | _ => (scanDec l false 0 0 false).map (fun p => ((p.1 : Int), (p.2 : Int)))

/-- Round n / d to the nearest integer, ties to the even neighbour
(d positive; floor division keeps the remainder non-negative, which makes
the rule symmetric in sign exactly as RoundingMode::HalfEven is). -/
def roundHalfEven (n : Int) (d : Int) : Int :=
  let q := Int.fdiv n d
  let r := n - q * d
  if 2 * r < d then q
  else if d < 2 * r then q + 1
  else if q % 2 = 0 then q else q + 1

/-- BigDecimal::with_scale_round(4, RoundingMode::HalfEven). -/
def withScaleRound4HalfEven (m : Int) (s : Int) : Int × Int :=
  if s ≤ 4 then (m * 10 ^ (4 - s).toNat, 4)
  else (roundHalfEven m (10 ^ (s - 4).toNat), 4)

/-- The exact rational value denoted by a mantissa/scale pair. -/
def decValue (p : Int × Int) : ℚ :=
  if 0 ≤ p.2 then (p.1 : ℚ) / (10 ^ p.2.toNat) else (p.1 : ℚ) * (10 ^ (-p.2).toNat)

/-- Serde error placeholder for deserialize_decimal. -/
inductive DeError where
  | custom (msg : String)
deriving DecidableEq

/-- model.rs deserialize_decimal, after the Option String has been read. -/
def deserialize_decimal (input : Option String) : Except DeError (Option (Int × Int)) :=
  match input with
  | some s =>
    let t := trimChars s.data
    if t.isEmpty then .ok none
    else
      match parseBigDecimalChars t with
      | none => .error (.custom ("Unable to parse to BigDecimal: " ++ String.mk t))
      | some d => .ok (some (withScaleRound4HalfEven d.1 d.2))
  | none => .ok none

/-! ### Concrete scenario states used by counterexamples and witnesses -/

/-- Deposit(client 1, tx 1, 100) into a fresh engine. -/
def stDepositRun : PaymentsEngine :=
  processAll emptyEngine [⟨.deposit, 1, 1, some 100⟩]

/-- Deposit(1, 1, 100) then Dispute(1, 1): tx 1 disputed, held 100. -/
def stDisputedRun : PaymentsEngine :=
  processAll emptyEngine [⟨.deposit, 1, 1, some 100⟩, ⟨.dispute, 1, 1, none⟩]

/-- Deposit, Dispute, Chargeback on client 1: account locked, tx 1 chargedback. -/
def stLockedRun : PaymentsEngine :=
  processAll emptyEngine
    [⟨.deposit, 1, 1, some 100⟩, ⟨.dispute, 1, 1, none⟩, ⟨.chargeback, 1, 1, none⟩]

/-- Literal state: client 1 holds 100 disputed from tx 1. -/
def engDisputed : PaymentsEngine :=
  ⟨fun c => if c = 1 then some ⟨0, 100, .active⟩ else none,
   fun k => if k = 1 then some ⟨1, 1, .deposit, 100, .disputed⟩ else none⟩

/-- Literal state: client 1 has 100 available, tx 1 stored processed. -/
def engWithTx1 : PaymentsEngine :=
  ⟨fun c => if c = 1 then some ⟨100, 0, .active⟩ else none,
   fun k => if k = 1 then some ⟨1, 1, .deposit, 100, .processed⟩ else none⟩

/-- Literal state: client 1 has 100 available, no transactions stored. -/
def engFunded : PaymentsEngine :=
  ⟨fun c => if c = 1 then some ⟨100, 0, .active⟩ else none,
   fun _ => none⟩

/-- Literal state: client 1 locked, empty transaction store. -/
def engLocked : PaymentsEngine :=
  ⟨fun c => if c = 1 then some ⟨0, 0, .locked⟩ else none,
   fun _ => none⟩

/-- Literal state: client 1 locked with 50 held, tx 2 disputed. -/
def engLockedDisputed : PaymentsEngine :=
  ⟨fun c => if c = 1 then some ⟨0, 50, .locked⟩ else none,
   fun k => if k = 2 then some ⟨2, 1, .deposit, 50, .disputed⟩ else none⟩

/-! ### C3 -/

/-- C3 counterexample: the amount text "1.00005" does NOT normalize to
1.0001.  with_scale_round(4, HalfEven) parses it to mantissa 100005 at
scale 5 and rounds the tie to the even neighbour, mantissa 10000 at scale
4, whose exact value differs from 1.0001 = 10001/10000. -/
theorem amount_rounding_half_even_cex :
    deserialize_decimal (some "1.00005") = .ok (some (10000, 4)) ∧
    decValue (10000, 4) ≠ decValue (10001, 4) := by
  constructor
  · rfl
  · norm_num [decValue, show Int.toNat 4 = 4 from rfl]

/-- C3 (amended): parsing the amount text "1.00005" normalizes it, using
round-half-to-even at 4 fractional digits, to the exact decimal value
1.0000: the dropped digit 5 is an exact tie and the kept fourth fractional
digit 0 is already even. -/
theorem amount_rounding_half_even_amended :
    deserialize_decimal (some "1.00005") = .ok (some (10000, 4)) ∧
    decValue (10000, 4) = 1 := by
  constructor
  · rfl
  · norm_num [decValue, show Int.toNat 4 = 4 from rfl]

/-! ### C4 -/

/-- C4 counterexample: a malformed row terminates the run with the row
error: main returns Err for the row, so the subsequent well-formed deposit
row is never processed and the success path becomes an error, while the
same run without the malformed row succeeds. -/
theorem parse_error_terminates_run_cex :
    runMain ⟨emptyEngine, []⟩ [.error ⟨7⟩, .ok ⟨.deposit, 1, 1, some 100⟩]
      = .error ⟨7⟩ ∧
    runMain ⟨emptyEngine, []⟩ [.ok ⟨.deposit, 1, 1, some 100⟩]
      = .ok ⟨(processCsvRecord emptyEngine ⟨.deposit, 1, 1, some 100⟩).2, []⟩ := by
  constructor
  · rfl
  · rfl

/-- C4 (amended): per-record processing failures are only logged and the
run over a fully parseable row sequence always reaches the success path,
but a malformed row (a row-level parse error) terminates the run with that
error instead of being skipped. -/
theorem run_error_isolation (st : RunState) (rows : List Row)
    (hok : ∀ row ∈ rows, ∃ r, row = Except.ok r) :
    (∃ st2, runMain st rows = .ok st2) ∧
    (∀ pe rest, runMain st (.error pe :: rest) = .error pe) := by
  constructor
  · induction rows generalizing st with
    | nil => exact ⟨st, rfl⟩
    | cons row rest ih =>
      have hrest : ∀ row2 ∈ rest, ∃ r, row2 = Except.ok r :=
        fun x hx => hok x (List.mem_cons_of_mem _ hx)
      obtain ⟨r, rfl⟩ := hok row (List.mem_cons_self _ _)
      dsimp only [runMain]
      rcases hres : processCsvRecord st.engine r with ⟨res, e2⟩
      cases res with
      | ok u =>
        cases u
        exact ih ⟨e2, st.stderrLog⟩ hrest
      | error err =>
        exact ih ⟨e2, st.stderrLog ++ [err]⟩ hrest
  · intro pe rest
    rfl

/-- C4 witness: a single parseable deposit row reaches the success path,
and any run starting with a parse-error row returns that error. -/
theorem run_error_isolation_witness :
    (∃ st2, runMain ⟨emptyEngine, []⟩ [.ok ⟨.deposit, 1, 1, some 100⟩] = .ok st2) ∧
    (∀ pe rest, runMain ⟨emptyEngine, []⟩ (.error pe :: rest) = .error pe) :=
  run_error_isolation ⟨emptyEngine, []⟩ [.ok ⟨.deposit, 1, 1, some 100⟩]
    (by
      intro row hrow
      simp only [List.mem_singleton] at hrow
      exact ⟨_, hrow⟩)

/-! ### C5 -/

/-- C5 (confirmed): a Deposit or Withdrawal record whose TxId is already in
the transaction store fails with DuplicateTransaction and leaves the whole
engine state (both stores) exactly unchanged. -/
theorem duplicate_txid_rejected_no_mutation (e : PaymentsEngine) (r : CSVRecord)
    (hk : r.type = .deposit ∨ r.type = .withdrawal)
    (hdup : (e.transactions r.tx).isSome = true) :
    (processCsvRecord e r).1 = .error (.duplicateTransactionId r.tx) ∧
    (processCsvRecord e r).2 = e := by
  rcases hk with h | h
  · have hr : processCsvRecord e r = processDeposit e r := by
      dsimp only [processCsvRecord]
      rw [h]
    rw [hr]
    dsimp only [processDeposit]
    rw [if_pos hdup]
    exact ⟨rfl, rfl⟩
  · have hr : processCsvRecord e r = processWithdrawal e r := by
      dsimp only [processCsvRecord]
      rw [h]
    rw [hr]
    dsimp only [processWithdrawal]
    rw [if_pos hdup]
    exact ⟨rfl, rfl⟩

/-- C5 witness: replaying TxId 1 as a deposit against a state that already
stores tx 1 fails with DuplicateTransaction and leaves the state intact. -/
theorem duplicate_txid_rejected_no_mutation_witness :
    (processCsvRecord engWithTx1 ⟨.deposit, 1, 1, some 5⟩).1
      = .error (.duplicateTransactionId 1) ∧
    (processCsvRecord engWithTx1 ⟨.deposit, 1, 1, some 5⟩).2 = engWithTx1 :=
  duplicate_txid_rejected_no_mutation engWithTx1 ⟨.deposit, 1, 1, some 5⟩
    (Or.inl rfl) rfl

/-! ### C1 -/

/-- C1 counterexample: process_resolve never compares the record client to
the stored client and mutates the account of the record client.  After
Deposit(1, 1, 100) and Dispute(1, 1), the record Resolve(client 2, tx 1)
succeeds, leaves the stored client 1 account untouched (held stays 100,
available stays 0, not the claimed held 0 / available 100), and drives the
held balance of client 2 from 0 down to -100 through a transaction that
belongs to client 1. -/
theorem resolve_mismatched_client_cex :
    txStatusOf stDisputedRun 1 = some .disputed ∧
    (processCsvRecord stDisputedRun ⟨.resolve, 2, 1, none⟩).1 = .ok () ∧
    heldOf (processCsvRecord stDisputedRun ⟨.resolve, 2, 1, none⟩).2 1 = 100 ∧
    availOf (processCsvRecord stDisputedRun ⟨.resolve, 2, 1, none⟩).2 1 = 0 ∧
    heldOf stDisputedRun 2 = 0 ∧
    heldOf (processCsvRecord stDisputedRun ⟨.resolve, 2, 1, none⟩).2 2 = -100 ∧
    txStatusOf (processCsvRecord stDisputedRun ⟨.resolve, 2, 1, none⟩).2 1
      = some .resolved := by
  refine ⟨?_, ?_, ?_, ?_, ?_, ?_, ?_⟩ <;>
    norm_num [stDisputedRun, processAll, processCsvRecord, processDeposit,
      processWithdrawal, processDispute, processResolve, processChargeback,
      emptyEngine, getOrInitialise, setAccount, txInsert, setStatus,
      defaultAccount, availOf, heldOf, lockedOf, txStatusOf,
      Transaction.tryFrom, Transaction.canBeDisputed, Transaction.isDisputed,
      ClientAccount.isLocked]

/-- C1 (amended): for every Resolve record whose referenced transaction
exists with status Disputed, the engine moves the stored amount from held
to available on the account of the RECORD client (which coincides with the
stored client only when the two match; the stored client account is left
untouched otherwise) and sets the status to Resolved; and a held balance
can only decrease at the client named by a Resolve or Chargeback record,
the stored transaction of which may belong to a different client. -/
theorem resolve_moves_funds_on_record_client (e : PaymentsEngine) (r : CSVRecord)
    (t : Transaction) (hnn : AmountsNonneg e) :
    (r.type = .resolve → e.transactions r.tx = some t → t.status = .disputed →
      t.tx = r.tx →
      (processCsvRecord e r).1 = .ok () ∧
      availOf (processCsvRecord e r).2 r.client = availOf e r.client + t.amount ∧
      heldOf (processCsvRecord e r).2 r.client = heldOf e r.client - t.amount ∧
      txStatusOf (processCsvRecord e r).2 r.tx = some .resolved ∧
      (∀ c, c ≠ r.client →
        availOf (processCsvRecord e r).2 c = availOf e c ∧
        heldOf (processCsvRecord e r).2 c = heldOf e c)) ∧
    (∀ c, heldOf (processCsvRecord e r).2 c < heldOf e c →
      (r.type = .resolve ∨ r.type = .chargeback) ∧ r.client = c) := by
  constructor
  · intro hty ht hst hkey
    have hr : processCsvRecord e r = processResolve e r := by
      dsimp only [processCsvRecord]
      rw [hty]
    rw [hr]
    obtain ⟨h1, h2, h3, h4⟩ := processResolve_disputed e r t ht hst
    obtain ⟨h5, h6⟩ := h4 hkey
    exact ⟨h5, h1, h2, h6, h3⟩
  · intro c hlt
    exact heldOf_decrease_step e r c hnn hlt

/-- C1 witness: resolving the disputed tx 1 with the matching client 1
moves 100 from held back to available on client 1. -/
theorem resolve_moves_funds_on_record_client_witness :
    availOf (processCsvRecord engDisputed ⟨.resolve, 1, 1, none⟩).2 1 = 100 ∧
    heldOf (processCsvRecord engDisputed ⟨.resolve, 1, 1, none⟩).2 1 = 0 ∧
    txStatusOf (processCsvRecord engDisputed ⟨.resolve, 1, 1, none⟩).2 1
      = some .resolved := by
  have hnn : AmountsNonneg engDisputed := by
    intro k u hk
    simp only [engDisputed] at hk
    split at hk
    · cases hk
      norm_num
    · cases hk
  obtain ⟨-, h2, h3, h4, -⟩ :=
    (resolve_moves_funds_on_record_client engDisputed ⟨.resolve, 1, 1, none⟩
      ⟨1, 1, .deposit, 100, .disputed⟩ hnn).1 rfl rfl rfl rfl
  refine ⟨?_, ?_, h4⟩
  · rw [h2]
    norm_num [availOf, engDisputed, defaultAccount]
  · rw [h3]
    norm_num [heldOf, engDisputed, defaultAccount]

/-! ### C2 -/

/-- C2 counterexample: a Dispute makes an available balance negative.
After Deposit(1, 1, 100), Withdrawal(1, 2, 50) and Dispute(1, 1) the
available balance of client 1 is -50. -/
theorem dispute_drives_available_negative_cex :
    availOf (processAll emptyEngine
      [⟨.deposit, 1, 1, some 100⟩, ⟨.withdrawal, 1, 2, some 50⟩,
       ⟨.dispute, 1, 1, none⟩]) 1 = -50 ∧
    availOf (processAll emptyEngine
      [⟨.deposit, 1, 1, some 100⟩, ⟨.withdrawal, 1, 2, some 50⟩,
       ⟨.dispute, 1, 1, none⟩]) 1 < 0 := by
  constructor <;>
    norm_num [processAll, processCsvRecord, processDeposit, processWithdrawal,
      processDispute, emptyEngine, getOrInitialise, setAccount, txInsert,
      setStatus, defaultAccount, availOf, Transaction.tryFrom,
      Transaction.canBeDisputed, ClientAccount.isLocked]

/-- C2 (amended): every record other than a Dispute preserves
non-negativity of all available balances (a Dispute of a deposit can drive
the available balance negative), and a withdrawal on a fresh TxId against
an unlocked account with available below the requested amount is rejected
with InsufficientFunds before any balance mutation. -/
theorem available_nonneg_except_dispute (e : PaymentsEngine) (r : CSVRecord)
    (hnn : AmountsNonneg e)
    (hav : ∀ c, 0 ≤ availOf e c)
    (hnd : r.type ≠ .dispute) :
    (∀ c, 0 ≤ availOf (processCsvRecord e r).2 c) ∧
    (r.type = .withdrawal → e.transactions r.tx = none →
      lockedOf e r.client = false → availOf e r.client < r.amount.getD 0 →
      (processCsvRecord e r).1 = .error .insufficientFunds ∧
      ∀ c, availOf (processCsvRecord e r).2 c = availOf e c ∧
           heldOf (processCsvRecord e r).2 c = heldOf e c) := by
  constructor
  · intro c
    exact availOf_nonneg_step e r c hnn (hav c) hnd
  · intro hty hfresh hlock hlt
    have hr : processCsvRecord e r = processWithdrawal e r := by
      dsimp only [processCsvRecord]
      rw [hty]
    rw [hr]
    obtain ⟨h1, h2, -⟩ := processWithdrawal_insufficient e r hfresh hlock hlt
    exact ⟨h1, h2⟩

/-- C2 witness: withdrawing 200 against 100 available is rejected with
InsufficientFunds and all balances stay non-negative and unchanged. -/
theorem available_nonneg_except_dispute_witness :
    0 ≤ availOf (processCsvRecord engFunded ⟨.withdrawal, 1, 2, some 200⟩).2 1 ∧
    (processCsvRecord engFunded ⟨.withdrawal, 1, 2, some 200⟩).1
      = .error .insufficientFunds := by
  have hnn : AmountsNonneg engFunded := by
    intro k u hk
    simp [engFunded] at hk
  have hav : ∀ c, 0 ≤ availOf engFunded c := by
    intro c
    simp only [availOf, engFunded]
    split <;> norm_num [defaultAccount]
  have h := available_nonneg_except_dispute engFunded ⟨.withdrawal, 1, 2, some 200⟩
    hnn hav (by decide)
  refine ⟨h.1 1, ?_⟩
  exact (h.2 rfl rfl rfl (by norm_num [availOf, engFunded])).1

/-! ### C6 -/

/-- C6 (confirmed): for a Dispute whose transaction exists with a matching
client, a stored Withdrawal or an already Disputed or Chargedback status
gives a silent no-op leaving the engine untouched, while a stored Deposit
with status Processed or Resolved moves the amount from available to held
and marks the transaction Disputed. -/
theorem dispute_lifecycle_rules (e : PaymentsEngine) (r : CSVRecord)
    (t : Transaction)
    (hk : r.type = .dispute)
    (ht : e.transactions r.tx = some t)
    (hcl : t.client = r.client)
    (hkey : t.tx = r.tx) :
    ((t.type = .withdrawal ∨ t.status = .disputed ∨ t.status = .chargedback) →
      (processCsvRecord e r).1 = .ok () ∧ (processCsvRecord e r).2 = e) ∧
    (t.type = .deposit → (t.status = .processed ∨ t.status = .resolved) →
      (processCsvRecord e r).1 = .ok () ∧
      availOf (processCsvRecord e r).2 r.client = availOf e r.client - t.amount ∧
      heldOf (processCsvRecord e r).2 r.client = heldOf e r.client + t.amount ∧
      txStatusOf (processCsvRecord e r).2 r.tx = some .disputed) := by
  have hr : processCsvRecord e r = processDispute e r := by
    dsimp only [processCsvRecord]
    rw [hk]
  rw [hr]
  constructor
  · intro hno
    dsimp only [processDispute]
    rw [ht]
    dsimp only
    rw [if_neg (by simp [hcl])]
    rw [if_pos ?hc]
    case hc =>
      rcases hno with h | h | h
      · refine Or.inl ?_
        rw [h]
        decide
      · refine Or.inr ?_
        unfold Transaction.canBeDisputed
        rw [if_neg (by simp [hcl])]
        rw [h]
      · refine Or.inr ?_
        unfold Transaction.canBeDisputed
        rw [if_neg (by simp [hcl])]
        rw [h]
    exact ⟨rfl, rfl⟩
  · intro hty hst
    obtain ⟨h1, h2, -, h4⟩ := processDispute_mutates e r t ht hcl hty hst
    obtain ⟨h5, h6⟩ := h4 hkey
    exact ⟨h5, h1, h2, h6⟩

/-- C6 witness: disputing the already disputed tx 1 is a silent no-op. -/
theorem dispute_lifecycle_rules_witness :
    (processCsvRecord engDisputed ⟨.dispute, 1, 1, none⟩).1 = .ok () ∧
    (processCsvRecord engDisputed ⟨.dispute, 1, 1, none⟩).2 = engDisputed :=
  (dispute_lifecycle_rules engDisputed ⟨.dispute, 1, 1, none⟩
    ⟨1, 1, .deposit, 100, .disputed⟩ rfl rfl rfl rfl).1 (Or.inr (Or.inl rfl))

/-! ### C7 -/

/-- C7 (confirmed): a Chargeback on an absent TxId fails with
MissingTransaction leaving the engine unchanged (in particular the account
is not locked), and a Chargeback whose client does not match the stored
client fails with InvalidClientId, also without mutation. -/
theorem chargeback_check_before_mutate (e : PaymentsEngine) (r : CSVRecord)
    (hk : r.type = .chargeback) :
    (e.transactions r.tx = none →
      (processCsvRecord e r).1 = .error (.missingTransaction r.tx) ∧
      (processCsvRecord e r).2 = e ∧
      lockedOf (processCsvRecord e r).2 r.client = lockedOf e r.client) ∧
    (∀ t, e.transactions r.tx = some t → t.client ≠ r.client →
      (processCsvRecord e r).1 = .error .invalidClinetId ∧
      (processCsvRecord e r).2 = e ∧
      lockedOf (processCsvRecord e r).2 r.client = lockedOf e r.client) := by
  have hr : processCsvRecord e r = processChargeback e r := by
    dsimp only [processCsvRecord]
    rw [hk]
  rw [hr]
  constructor
  · intro hnone
    dsimp only [processChargeback]
    rw [hnone]
    exact ⟨rfl, rfl, rfl⟩
  · intro t ht hcl
    dsimp only [processChargeback]
    rw [ht]
    dsimp only
    rw [if_pos hcl]
    exact ⟨rfl, rfl, rfl⟩

/-- C7 witness: a Chargeback against the absent tx 99 fails with
MissingTransaction and does not lock, and a Chargeback on tx 1 from the
wrong client 2 fails with InvalidClientId without mutation. -/
theorem chargeback_check_before_mutate_witness :
    ((processCsvRecord engWithTx1 ⟨.chargeback, 1, 99, none⟩).1
      = .error (.missingTransaction 99) ∧
     (processCsvRecord engWithTx1 ⟨.chargeback, 1, 99, none⟩).2 = engWithTx1) ∧
    ((processCsvRecord engWithTx1 ⟨.chargeback, 2, 1, none⟩).1
      = .error .invalidClinetId ∧
     (processCsvRecord engWithTx1 ⟨.chargeback, 2, 1, none⟩).2 = engWithTx1) := by
  constructor
  · obtain ⟨h1, h2, -⟩ :=
      (chargeback_check_before_mutate engWithTx1 ⟨.chargeback, 1, 99, none⟩ rfl).1 rfl
    exact ⟨h1, h2⟩
  · obtain ⟨h1, h2, -⟩ :=
      (chargeback_check_before_mutate engWithTx1 ⟨.chargeback, 2, 1, none⟩ rfl).2
        ⟨1, 1, .deposit, 100, .processed⟩ rfl (by decide)
    exact ⟨h1, h2⟩

/-! ### C8 -/

/-- C8 counterexample: after Deposit(1, 1, 100), Dispute(1, 1),
Chargeback(1, 1) the account of client 1 is locked, yet a subsequent
Deposit reusing TxId 1 fails with DuplicateTransaction, not with
AccountLocked: the duplicate check runs before the lock check. -/
theorem locked_account_duplicate_txid_cex :
    lockedOf stLockedRun 1 = true ∧
    (processCsvRecord stLockedRun ⟨.deposit, 1, 1, some 100⟩).1
      = .error (.duplicateTransactionId 1) ∧
    (processCsvRecord stLockedRun ⟨.deposit, 1, 1, some 100⟩).1
      ≠ .error .accountLocked := by
  refine ⟨?_, ?_, ?_⟩ <;>
    norm_num [stLockedRun, processAll, processCsvRecord, processDeposit,
      processWithdrawal, processDispute, processResolve, processChargeback,
      emptyEngine, getOrInitialise, setAccount, txInsert, setStatus,
      defaultAccount, lockedOf, Transaction.tryFrom,
      Transaction.canBeDisputed, Transaction.isDisputed,
      ClientAccount.isLocked]
  all_goals decide

/-- C8 (amended): once an account is locked no later operation in the run
ever clears the flag, and every subsequent Deposit or Withdrawal for that
client whose TxId is not already stored fails with AccountLocked (a reused
TxId fails with DuplicateTransaction instead). -/
theorem lock_permanent_and_rejects_fresh (e : PaymentsEngine) (c : ClientId)
    (hl : lockedOf e c = true) :
    (∀ rs, lockedOf (processAll e rs) c = true) ∧
    (∀ rs r, (r.type = .deposit ∨ r.type = .withdrawal) → r.client = c →
      (processAll e rs).transactions r.tx = none →
      (processCsvRecord (processAll e rs) r).1 = .error .accountLocked) := by
  constructor
  · intro rs
    exact lockedOf_processAll e rs c hl
  · intro rs r hk hc hfresh
    have hl2 : lockedOf (processAll e rs) r.client = true := by
      rw [hc]
      exact lockedOf_processAll e rs c hl
    rcases hk with h | h
    · have hr : processCsvRecord (processAll e rs) r = processDeposit (processAll e rs) r := by
        dsimp only [processCsvRecord]
        rw [h]
      rw [hr]
      exact processDeposit_locked_rejects (processAll e rs) r hfresh hl2
    · have hr : processCsvRecord (processAll e rs) r = processWithdrawal (processAll e rs) r := by
        dsimp only [processCsvRecord]
        rw [h]
      rw [hr]
      exact processWithdrawal_locked_rejects (processAll e rs) r hfresh hl2

/-- C8 witness: with client 1 locked, the flag survives an empty remainder
of the run and a fresh-TxId deposit for client 1 fails with AccountLocked. -/
theorem lock_permanent_and_rejects_fresh_witness :
    lockedOf (processAll engLocked []) 1 = true ∧
    (processCsvRecord (processAll engLocked []) ⟨.deposit, 1, 2, some 5⟩).1
      = .error .accountLocked := by
  have h := lock_permanent_and_rejects_fresh engLocked 1 rfl
  exact ⟨h.1 [], h.2 [] ⟨.deposit, 1, 2, some 5⟩ (Or.inl rfl) rfl rfl⟩

/-! ### C9 -/

/-- C9 counterexample: with tx 1 already stored and only 100 available, a
Withdrawal reusing TxId 1 for 200 satisfies available < amount but fails
with DuplicateTransaction, not with InsufficientFunds: the duplicate check
runs first. -/
theorem insufficient_funds_duplicate_txid_cex :
    availOf stDepositRun 1
      < ((⟨.withdrawal, 1, 1, some 200⟩ : CSVRecord).amount.getD 0) ∧
    (processCsvRecord stDepositRun ⟨.withdrawal, 1, 1, some 200⟩).1
      = .error (.duplicateTransactionId 1) ∧
    (processCsvRecord stDepositRun ⟨.withdrawal, 1, 1, some 200⟩).1
      ≠ .error .insufficientFunds := by
  refine ⟨?_, ?_, ?_⟩ <;>
    norm_num [stDepositRun, processAll, processCsvRecord, processDeposit,
      processWithdrawal, emptyEngine, getOrInitialise, setAccount, txInsert,
      setStatus, defaultAccount, availOf, Transaction.tryFrom,
      ClientAccount.isLocked]
  all_goals decide

/-- C9 (amended): a Withdrawal on a fresh TxId against an unlocked account
whose available balance is strictly below the requested amount (a missing
amount counts as zero) fails with InsufficientFunds and leaves every
account's available and held balances unchanged. -/
theorem withdrawal_insufficient_funds_rejected (e : PaymentsEngine) (r : CSVRecord)
    (hk : r.type = .withdrawal)
    (hfresh : e.transactions r.tx = none)
    (hlock : lockedOf e r.client = false)
    (hav : availOf e r.client < r.amount.getD 0) :
    (processCsvRecord e r).1 = .error .insufficientFunds ∧
    (∀ c, availOf (processCsvRecord e r).2 c = availOf e c ∧
          heldOf (processCsvRecord e r).2 c = heldOf e c) := by
  have hr : processCsvRecord e r = processWithdrawal e r := by
    dsimp only [processCsvRecord]
    rw [hk]
  rw [hr]
  obtain ⟨h1, h2, -⟩ := processWithdrawal_insufficient e r hfresh hlock hav
  exact ⟨h1, h2⟩

/-- C9 witness: withdrawing 200 with 100 available on a fresh TxId fails
with InsufficientFunds and the balances of client 1 are untouched. -/
theorem withdrawal_insufficient_funds_rejected_witness :
    (processCsvRecord engFunded ⟨.withdrawal, 1, 2, some 200⟩).1
      = .error .insufficientFunds ∧
    availOf (processCsvRecord engFunded ⟨.withdrawal, 1, 2, some 200⟩).2 1
      = availOf engFunded 1 ∧
    heldOf (processCsvRecord engFunded ⟨.withdrawal, 1, 2, some 200⟩).2 1
      = heldOf engFunded 1 := by
  obtain ⟨h1, h2⟩ := withdrawal_insufficient_funds_rejected engFunded
    ⟨.withdrawal, 1, 2, some 200⟩ rfl rfl rfl (by norm_num [availOf, engFunded])
  exact ⟨h1, (h2 1).1, (h2 1).2⟩

/-! ### C10 -/

/-- C10 (confirmed): Dispute, Resolve and Chargeback records never fail
with AccountLocked, even on a locked account, and when their lifecycle
checks pass they still perform the corresponding balance mutations on the
locked account: a Dispute moves the amount from available to held, a
Resolve moves it back, a Chargeback removes it from held and keeps the
account locked. -/
theorem dispute_family_ignores_lock (e : PaymentsEngine) (r : CSVRecord)
    (hk : r.type = .dispute ∨ r.type = .resolve ∨ r.type = .chargeback)
    (_hl : lockedOf e r.client = true) :
    (processCsvRecord e r).1 ≠ .error .accountLocked ∧
    (∀ t, e.transactions r.tx = some t → t.client = r.client →
      t.type = .deposit → (t.status = .processed ∨ t.status = .resolved) →
      r.type = .dispute →
      availOf (processCsvRecord e r).2 r.client = availOf e r.client - t.amount ∧
      heldOf (processCsvRecord e r).2 r.client = heldOf e r.client + t.amount) ∧
    (∀ t, e.transactions r.tx = some t → t.status = .disputed →
      r.type = .resolve →
      availOf (processCsvRecord e r).2 r.client = availOf e r.client + t.amount ∧
      heldOf (processCsvRecord e r).2 r.client = heldOf e r.client - t.amount) ∧
    (∀ t, e.transactions r.tx = some t → t.client = r.client →
      t.type = .deposit → t.status = .disputed → r.type = .chargeback →
      heldOf (processCsvRecord e r).2 r.client = heldOf e r.client - t.amount ∧
      lockedOf (processCsvRecord e r).2 r.client = true) := by
  refine ⟨?_, ?_, ?_, ?_⟩
  · rcases hk with h | h | h
    · have hr : processCsvRecord e r = processDispute e r := by
        dsimp only [processCsvRecord]
        rw [h]
      rw [hr]
      exact processDispute_ne_accountLocked e r
    · have hr : processCsvRecord e r = processResolve e r := by
        dsimp only [processCsvRecord]
        rw [h]
      rw [hr]
      exact processResolve_ne_accountLocked e r
    · have hr : processCsvRecord e r = processChargeback e r := by
        dsimp only [processCsvRecord]
        rw [h]
      rw [hr]
      exact processChargeback_ne_accountLocked e r
  · intro t ht hcl hty hst hrty
    have hr : processCsvRecord e r = processDispute e r := by
      dsimp only [processCsvRecord]
      rw [hrty]
    rw [hr]
    obtain ⟨h1, h2, -, -⟩ := processDispute_mutates e r t ht hcl hty hst
    exact ⟨h1, h2⟩
  · intro t ht hst hrty
    have hr : processCsvRecord e r = processResolve e r := by
      dsimp only [processCsvRecord]
      rw [hrty]
    rw [hr]
    obtain ⟨h1, h2, -, -⟩ := processResolve_disputed e r t ht hst
    exact ⟨h1, h2⟩
  · intro t ht hcl hty hst hrty
    have hr : processCsvRecord e r = processChargeback e r := by
      dsimp only [processCsvRecord]
      rw [hrty]
    rw [hr]
    obtain ⟨h1, -, h3, -, -⟩ := processChargeback_disputed e r t ht hcl hty hst
    exact ⟨h1, h3⟩

/-- C10 witness: resolving the disputed tx 2 on the locked client 1 does
not fail with AccountLocked and still moves 50 from held to available. -/
theorem dispute_family_ignores_lock_witness :
    (processCsvRecord engLockedDisputed ⟨.resolve, 1, 2, none⟩).1
      ≠ .error .accountLocked ∧
    availOf (processCsvRecord engLockedDisputed ⟨.resolve, 1, 2, none⟩).2 1
      = availOf engLockedDisputed 1 + 50 ∧
    heldOf (processCsvRecord engLockedDisputed ⟨.resolve, 1, 2, none⟩).2 1
      = heldOf engLockedDisputed 1 - 50 := by
  have h := dispute_family_ignores_lock engLockedDisputed ⟨.resolve, 1, 2, none⟩
    (Or.inr (Or.inl rfl)) rfl
  obtain ⟨ha, hb⟩ := h.2.2.1 ⟨2, 1, .deposit, 50, .disputed⟩ rfl rfl rfl
  exact ⟨h.1, ha, hb⟩

end Silhouette
